import Mathlib

/-!
Verification of the real-time synchronization core of DNDCrawler.

The definitions below are a shallow embedding of:
- the per-room turn tracker (TurnTracker class in the client, file
  src/unnamed/part_005): fields enabled / order / activeIndex / turnCounter /
  players and the methods startTurns, advanceTurn, reorder, endActionMode,
  setPlayers;
- the WebSocket server (src/server/ws.js): the rooms and roomTurnState
  registries, the pendingPositionSaves batch map, the message handlers
  (move, turn_update, initiative_sort, chat_message, dm_drag), the broadcast
  primitives and the periodic flushPositionSaves job.

JS Maps are embedded as association lists with JS Map.set / Map.delete
semantics; JS numbers that are only carried around (coordinates, angles)
are embedded as integers since no arithmetic is ever performed on them;
JS strings used as payloads are embedded as lists of characters so that
the length-and-trim validation of chat content matches the source exactly.
-/

set_option maxRecDepth 10000

namespace DNDCrawler

/-! ## Association lists with JS Map semantics -/

/-- Lookup, first binding wins (JS Map has unique keys; the operations below
preserve that shape). -/
def alookup {β : Type} (m : List (Nat × β)) (k : Nat) : Option β :=
  match m with
  | [] => none
  | (k', v) :: rest => if k' = k then some v else alookup rest k

/-- JS Map.set: replace the binding in place if the key is present,
otherwise append it. -/
def aset {β : Type} (m : List (Nat × β)) (k : Nat) (v : β) : List (Nat × β) :=
  match m with
  | [] => [(k, v)]
  | (k', v') :: rest => if k' = k then (k, v) :: rest else (k', v') :: aset rest k v

/-- JS Map.delete. The maps built by this development always have unique
keys (they start empty and grow only through aset), so dropping every
binding of the key is observationally the deletion of its one binding. -/
def aremove {β : Type} (m : List (Nat × β)) (k : Nat) : List (Nat × β) :=
  m.filter (fun p => p.1 != k)

structure TurnTrackerSt where
  enabled : Bool
  order : List Nat
  activeIndex : Int
  turnCounter : Nat
  players : List Nat
deriving DecidableEq

/-- Constructor state: enabled=false, order=[], activeIndex=-1, turnCounter=0. -/
def initTracker (players : List Nat) : TurnTrackerSt :=
  ⟨false, [], -1, 0, players⟩

/-- TurnTracker._startTurns: order is rebuilt from the roster (entries with a
truthy characterId), activeIndex := 0, turnCounter := 0. -/
def startTurns (s : TurnTrackerSt) : TurnTrackerSt :=
  { s with
    order := s.players.filter (fun id => id != 0)
    activeIndex := 0
    turnCounter := 0 }

/-- TurnTracker._advanceTurn(direction). -/
def advanceTurn (s : TurnTrackerSt) (direction : Int) : TurnTrackerSt :=
  if s.order.length = 0 then s
  else
    let newIndex := s.activeIndex + direction
    if (s.order.length : Int) ≤ newIndex then
      { s with activeIndex := 0, turnCounter := s.turnCounter + 1 }
    else if newIndex < 0 then
      if 0 < s.turnCounter then
        { s with activeIndex := (s.order.length : Int) - 1, turnCounter := s.turnCounter - 1 }
      else
        { s with activeIndex := 0 }
    else
      { s with activeIndex := newIndex }

/-- JS Array.prototype.splice based move of one element, as used by
TurnTracker._reorder. Indices come from rendered list items, hence are
always below the list length; the out-of-range branch is unreachable. -/
def listMove {α : Type} (l : List α) (fromIdx toIdx : Nat) : List α :=
  if h : fromIdx < l.length then
    (l.eraseIdx fromIdx).insertIdx toIdx (l.get ⟨fromIdx, h⟩)
  else l

/-- TurnTracker._reorder(fromIdx, toIdx). -/
def reorderTracker (s : TurnTrackerSt) (fromIdx toIdx : Nat) : TurnTrackerSt :=
  if s.order.length = 0 then
    { s with players := listMove s.players fromIdx toIdx }
  else if h : fromIdx < s.order.length ∧ toIdx < s.order.length then
    let moved := s.order.get ⟨fromIdx, h.1⟩
    let newOrder := (s.order.eraseIdx fromIdx).insertIdx toIdx moved
    let newAi : Int :=
      if (fromIdx : Int) = s.activeIndex then (toIdx : Int)
      else if (fromIdx : Int) < s.activeIndex ∧ s.activeIndex ≤ (toIdx : Int) then
        s.activeIndex - 1
      else if s.activeIndex < (fromIdx : Int) ∧ (toIdx : Int) ≤ s.activeIndex then
        s.activeIndex + 1
      else s.activeIndex
    { s with order := newOrder, activeIndex := newAi }
  else s

/-- TurnTracker._endActionMode. -/
def endActionMode (s : TurnTrackerSt) : TurnTrackerSt :=
  { s with order := [], activeIndex := -1, turnCounter := 0 }

/-- TurnTracker.setPlayers(players): replaces the roster, drops ordered
characters that no longer exist, clamps activeIndex. -/
def setPlayers (s : TurnTrackerSt) (ps : List Nat) : TurnTrackerSt :=
  let s' := { s with players := ps }
  if 0 < s'.order.length then
    let newOrder := s'.order.filter (fun id => ps.contains id)
    let newAi : Int :=
      if (newOrder.length : Int) ≤ s'.activeIndex then
        max 0 ((newOrder.length : Int) - 1)
      else s'.activeIndex
    { s' with order := newOrder, activeIndex := newAi }
  else s'

/-- The turn-tracker operations named by the spec: start turns, advance,
reorder, end, player-list update. -/
inductive TrackerOp where
  | start : TrackerOp
  | advance (direction : Int) : TrackerOp
  | reorder (fromIdx toIdx : Nat) : TrackerOp
  | endMode : TrackerOp
  | setPlayers (ps : List Nat) : TrackerOp
deriving DecidableEq

def applyTrackerOp (s : TurnTrackerSt) : TrackerOp → TurnTrackerSt
  | .start => startTurns s
  | .advance d => advanceTurn s d
  | .reorder f t => reorderTracker s f t
  | .endMode => endActionMode s
  | .setPlayers ps => setPlayers s ps

def runTrackerOps (players : List Nat) (ops : List TrackerOp) : TurnTrackerSt :=
  ops.foldl applyTrackerOp (initTracker players)

/-- The activeIndex bound that actually holds on the code: in range whenever
order is non-empty; either -1 or 0 whenever order is empty (startTurns with an
empty roster and setPlayers dropping every ordered character leave it at 0). -/
def indexInv (s : TurnTrackerSt) : Prop :=
  (s.order ≠ [] → 0 ≤ s.activeIndex ∧ s.activeIndex < (s.order.length : Int)) ∧
  (s.order = [] → s.activeIndex = -1 ∨ s.activeIndex = 0)

structure Session where
  sid : Nat
  userId : Nat
  username : String
  gameId : Nat
  role : String
  wsOpen : Bool
deriving DecidableEq

/-- Map<gameId, Set<ClientInfo>> (the rooms registry). -/
abbrev Rooms := List (Nat × List Session)

/-- The session set of a room, empty when the room does not exist. -/
def roomSessions (rooms : Rooms) (gameId : Nat) : List Session :=
  match alookup rooms gameId with
  | none => []
  | some members => members

/-- broadcastToAll(gameId, message): every client of the room whose socket
is OPEN receives the message; the result is the list of receivers. -/
def broadcastToAll (rooms : Rooms) (gameId : Nat) : List Session :=
  match alookup rooms gameId with
  | none => []
  | some room => room.filter (fun c => c.wsOpen)

/-- broadcastToOthers(sender, message): every client of the sender's room
except the sender itself whose socket is OPEN receives the message. -/
def broadcastToOthers (rooms : Rooms) (sender : Session) : List Session :=
  match alookup rooms sender.gameId with
  | none => []
  | some room => room.filter (fun c => (c.sid != sender.sid) && c.wsOpen)

/-! ### Position update router (handleMove, dm_drag handler) -/

/-- One entry of the pendingPositionSaves map: {x, y, angle} with
angle null for dm_drag entries. Coordinates are opaque payload numbers
(never computed with), embedded as integers. -/
structure PendingPos where
  x : Int
  y : Int
  angle : Option Int
deriving DecidableEq

/-- One row of the characters table (the fields the core touches). -/
structure CharRow where
  userId : Nat
  x : Int
  y : Int
  angle : Int
deriving DecidableEq

/-- The characters table keyed by character id. -/
abbrev CharsDb := List (Nat × CharRow)

/-- SELECT user_id FROM characters WHERE id = ? -/
def charOwner (chars : CharsDb) (characterId : Nat) : Option Nat :=
  match alookup chars characterId with
  | none => none
  | some row => some row.userId

/-- A move message; a field is none when it is absent/null in the JSON
(the source checks each with == null). -/
structure MoveIn where
  characterId : Option Nat
  x : Option Int
  y : Option Int
  angle : Option Int
deriving DecidableEq

/-- handleMove(client, msg): validates fields, authorizes (DM or character
owner), broadcasts to the other open sessions of the room, and upserts the
pending position entry. Returns (receivers of the broadcast, new pending
map). -/
def handleMove (rooms : Rooms) (chars : CharsDb) (client : Session) (msg : MoveIn)
    (pending : List (Nat × PendingPos)) : List Session × List (Nat × PendingPos) :=
  match msg.characterId, msg.x, msg.y, msg.angle with
  | some characterId, some x, some y, some angle =>
    -- if (client.role !== 'dm') { if (!char || char.user_id !== client.userId) return; }
    if client.role ≠ "dm" ∧ charOwner chars characterId ≠ some client.userId then
      ([], pending)
    else
      (broadcastToOthers rooms client, aset pending characterId ⟨x, y, some angle⟩)
  | _, _, _, _ => ([], pending)

/-- A dm_drag message (no angle field). -/
structure DmDragIn where
  characterId : Option Nat
  x : Option Int
  y : Option Int
deriving DecidableEq

/-- The dm_drag branch of the message dispatcher: DM only; broadcasts to
others and queues the position with angle: null. -/
def handleDmDrag (rooms : Rooms) (client : Session) (msg : DmDragIn)
    (pending : List (Nat × PendingPos)) : List Session × List (Nat × PendingPos) :=
  if client.role ≠ "dm" then ([], pending)
  else
    match msg.characterId, msg.x, msg.y with
    | some characterId, some x, some y =>
      (broadcastToOthers rooms client, aset pending characterId ⟨x, y, none⟩)
    | _, _, _ => ([], pending)

/-! ### Persistence batcher (flushPositionSaves) -/

/-- The two prepared UPDATE statements of flushPositionSaves: with a
non-null angle all three fields are written, otherwise only x and y. -/
def applyPosUpdate (chars : CharsDb) (charId : Nat) (pos : PendingPos) : CharsDb :=
  match pos.angle with
  | some a =>
    chars.map (fun p => if p.1 = charId then (p.1, { p.2 with x := pos.x, y := pos.y, angle := a }) else p)
  | none =>
    chars.map (fun p => if p.1 = charId then (p.1, { p.2 with x := pos.x, y := pos.y }) else p)

/-- One tick of the 3-second flush job. gatewayOk says whether the single
atomic DB transaction succeeds. On success every entry is written and the
pending map is cleared. On failure better-sqlite3 rolls the transaction
back and rethrows; flushPositionSaves has no try/catch, so the exception
propagates (third component true), pendingPositionSaves.clear() is never
reached and the map keeps the failed batch. -/
def flushPositionSaves (gatewayOk : Bool) (pending : List (Nat × PendingPos))
    (chars : CharsDb) : List (Nat × PendingPos) × CharsDb × Bool :=
  if pending = [] then (pending, chars, false)
  else if gatewayOk then
    ([], pending.foldl (fun db e => applyPosUpdate db e.1 e.2) chars, false)
  else
    (pending, chars, true)

/-! ### Turn state and initiative handlers -/

/-- The per-room stored turn state ({enabled, order, activeIndex}). -/
structure StoredTurnState where
  enabled : Bool
  order : List Nat
  activeIndex : Int
deriving DecidableEq

/-- A turn_update message after JS coercions: enabled is !!msg.enabled,
order is none when msg.order is not an array, activeIndex is none when not
a number. -/
structure TurnUpdateIn where
  enabled : Bool
  order : Option (List Nat)
  activeIndex : Option Int
  sortedPlayerOrder : Option (List Nat)
deriving DecidableEq

/-- The turn_update branch of the dispatcher: DM only; stores the new turn
state for the room and broadcasts to all (including the sender). Returns
(new roomTurnState map, receivers). -/
def handleTurnUpdate (rooms : Rooms) (turnStates : List (Nat × StoredTurnState))
    (client : Session) (msg : TurnUpdateIn) :
    List (Nat × StoredTurnState) × List Session :=
  if client.role ≠ "dm" then (turnStates, [])
  else
    let ts : StoredTurnState := ⟨msg.enabled, msg.order.getD [], msg.activeIndex.getD (-1)⟩
    (aset turnStates client.gameId ts, broadcastToAll rooms client.gameId)

/-- The initiative_sort branch of the dispatcher: DM only; broadcasts the
sorted id list to all. It touches no stored state; the result is the
receiver list. -/
def handleInitiativeSort (rooms : Rooms) (client : Session)
    (_sortedCharIds : Option (List Nat)) : List Session :=
  if client.role ≠ "dm" then []
  else broadcastToAll rooms client.gameId

/-! ### Chat router (handleChatMessage) -/

/-- Validated roll payload shape ({sides, count, results, total}). -/
structure Roll where
  sides : Int
  count : Int
  results : List Int
  total : Int
deriving DecidableEq

/-- A chat_message as received: content is none when msg.content is not a
string, recipientId none when not a number, roll none when absent or of
invalid shape. -/
structure ChatIn where
  content : Option (List Char)
  recipientId : Option Nat
  roll : Option Roll
deriving DecidableEq

/-- One row of the messages table. -/
structure ChatRow where
  gameId : Nat
  senderId : Nat
  senderName : String
  recipientId : Option Nat
  content : List Char
deriving DecidableEq

/-- The character class removed by ECMAScript String.prototype.trim:
WhiteSpace (TAB, VT, FF, SP, NBSP, ZWNBSP U+FEFF, and the Unicode
space-separator category Zs: SP, NBSP, U+1680, U+2000..U+200A, U+202F,
U+205F, U+3000) together with LineTerminator (LF, CR, LS U+2028,
PS U+2029). All of these are single UTF-16 code units, matching the
List Char embedding of the payload. -/
def isJsWhitespace (c : Char) : Bool :=
  c.toNat = 0x9 || c.toNat = 0xA || c.toNat = 0xB || c.toNat = 0xC ||
  c.toNat = 0xD || c.toNat = 0x20 || c.toNat = 0xA0 || c.toNat = 0x1680 ||
  (0x2000 ≤ c.toNat && c.toNat ≤ 0x200A) ||
  c.toNat = 0x2028 || c.toNat = 0x2029 || c.toNat = 0x202F ||
  c.toNat = 0x205F || c.toNat = 0x3000 || c.toNat = 0xFEFF

/-- JS String.prototype.trim on the chat payload. -/
def jsTrim (s : List Char) : List Char :=
  ((s.dropWhile isJsWhitespace).reverse.dropWhile isJsWhitespace).reverse

/-- handleChatMessage(client, msg): trims the content, validates it is
non-empty and at most 500 characters, persists the row, then routes:
recipientId null → broadcast to every open session of the room including
the sender; otherwise only sessions whose userId is the sender's or the
recipient's. Returns (new messages table, receivers). -/
def handleChatMessage (rooms : Rooms) (client : Session) (msg : ChatIn)
    (messagesDb : List ChatRow) : List ChatRow × List Session :=
  let content := jsTrim (msg.content.getD [])
  if content = [] ∨ 500 < content.length then (messagesDb, [])
  else
    let recipientId := msg.recipientId
    let messagesDb' := messagesDb ++
      [⟨client.gameId, client.userId, client.username, recipientId, content⟩]
    match recipientId with
    | none => (messagesDb', broadcastToAll rooms client.gameId)
    | some rid =>
      match alookup rooms client.gameId with
      | none => (messagesDb', [])
      | some room =>
        (messagesDb',
         room.filter (fun c => ((c.userId == client.userId) || (c.userId == rid)) && c.wsOpen))

/-! ### Frame guard (the dispatcher prologue of initWebSocket) -/

/-- What the connection-level message listener does with a frame before any
typed handler runs: non-JSON frames are ignored; auth frames enter the auth
branch; any other frame on a not-yet-authenticated connection is answered
with ws.close(4005, 'Not authenticated'); otherwise the frame is dispatched
to its typed handler. -/
inductive FrameOutcome where
  | ignored : FrameOutcome
  | authPath : FrameOutcome
  | closedConn (code : Nat) (reason : String) : FrameOutcome
  | dispatched : FrameOutcome
deriving DecidableEq

def messageGuard (isJson : Bool) (authed : Bool) (msgType : String) : FrameOutcome :=
  if !isJson then .ignored
  else if msgType = "auth" then .authPath
  else if !authed then .closedConn 4005 "Not authenticated"
  else .dispatched

/-! ### Room lifecycle (auth registration, ws close handler) -/

/-- Lines 90-93 of ws.js: lazily create the room, add the client. -/
def joinRoom (rooms : Rooms) (client : Session) : Rooms :=
  match alookup rooms client.gameId with
  | none => aset rooms client.gameId [client]
  | some members =>
    aset rooms client.gameId
      (if members.any (fun c => c.sid = client.sid) then members else members ++ [client])

/-- The ws close handler (lines 197-209): remove the client from its room;
when the room becomes empty delete the room and its stored turn state. -/
def closeConn (rooms : Rooms) (turnStates : List (Nat × StoredTurnState))
    (client : Session) : Rooms × List (Nat × StoredTurnState) :=
  match alookup rooms client.gameId with
  | none => (rooms, turnStates)
  | some members =>
    let members' := members.filter (fun c => c.sid != client.sid)
    if members' = [] then
      (aremove rooms client.gameId, aremove turnStates client.gameId)
    else
      (aset rooms client.gameId members', turnStates)

/-- Join (successful auth) and leave (connection close) events. -/
inductive RoomEv where
  | join (c : Session) : RoomEv
  | leave (c : Session) : RoomEv
deriving DecidableEq

def roomStep (st : Rooms × List (Nat × StoredTurnState)) (e : RoomEv) :
    Rooms × List (Nat × StoredTurnState) :=
  match e with
  | .join c => (joinRoom st.1 c, st.2)
  | .leave c => closeConn st.1 st.2 c

/-- The registries start empty when the server boots. -/
def runRoomEvs (evs : List RoomEv) : Rooms × List (Nat × StoredTurnState) :=
  evs.foldl roomStep ([], [])

/-- Concrete sessions of one room used to exercise chat routing. -/
def chatSender : Session := ⟨1, 2, "u2", 7, "player", true⟩

def chatMembers : List Session :=
  [⟨1, 2, "u2", 7, "player", true⟩, ⟨2, 3, "u3", 7, "player", true⟩,
   ⟨3, 4, "u4", 7, "dm", true⟩]

def chatRooms : Rooms := [(7, chatMembers)]

/-- Every room present in the registry has a non-empty session set. -/
def roomsNonempty (rooms : Rooms) : Prop :=
  ∀ g ms, alookup rooms g = some ms → ms ≠ []

/-! ## Theorems -/

theorem alookup_aset {β : Type} (m : List (Nat × β)) (k k' : Nat) (v : β) :
    alookup (aset m k v) k' = if k = k' then some v else alookup m k' := by
  induction m with
  | nil =>
    by_cases h : k = k'
    · simp [aset, alookup, h]
    · simp [aset, alookup, h]
  | cons hd tl ih =>
    obtain ⟨k₀, v₀⟩ := hd
    by_cases h₀ : k₀ = k
    · subst h₀
      by_cases h₁ : k₀ = k'
      · subst h₁
        simp [aset, alookup]
      · simp [aset, alookup, h₁]
    · by_cases h₁ : k₀ = k'
      · subst h₁
        have hkk' : ¬k = k₀ := fun h => h₀ h.symm
        simp [aset, alookup, h₀, hkk']
      · simp [aset, alookup, h₀, h₁, ih]

theorem alookup_aremove {β : Type} (m : List (Nat × β)) (k k' : Nat) :
    alookup (aremove m k) k' = if k = k' then none else alookup m k' := by
  induction m with
  | nil =>
    by_cases h : k = k'
    · simp [aremove, alookup, h]
    · simp [aremove, alookup, h]
  | cons hd tl ih =>
    obtain ⟨k₀, v₀⟩ := hd
    by_cases h₀ : k₀ = k
    · subst h₀
      by_cases h₁ : k₀ = k'
      · subst h₁
        simpa [aremove, alookup] using ih
      · simpa [aremove, alookup, h₁] using ih
    · by_cases h₁ : k₀ = k'
      · subst h₁
        have hkk' : ¬k = k₀ := fun h => h₀ h.symm
        simp [aremove, alookup, h₀, hkk']
      · simpa [aremove, alookup, h₀, h₁] using ih

/-! ## Turn tracker state machine (TurnTracker class, src/unnamed/part_005)

The roster is embedded as the list of the characterId of each entry; a JS
falsy characterId (absent / 0) is embedded as 0, matching the
filter on p.characterId in startTurns. -/

theorem indexInv_congr {s s' : TurnTrackerSt} (ho : s'.order = s.order)
    (ha : s'.activeIndex = s.activeIndex) (h : indexInv s) : indexInv s' := by
  unfold indexInv at h ⊢
  rw [ho, ha]
  exact h

theorem indexInv_startTurns (s : TurnTrackerSt) : indexInv (startTurns s) := by
  refine ⟨fun hne => ?_, fun _ => Or.inr rfl⟩
  have hpos : 0 < (startTurns s).order.length := List.length_pos.mpr hne
  dsimp only [startTurns] at hpos ⊢
  omega

theorem indexInv_advanceTurn (s : TurnTrackerSt) (d : Int) (h : indexInv s) :
    indexInv (advanceTurn s d) := by
  obtain ⟨h₁, h₂⟩ := h
  by_cases hlen : s.order.length = 0
  · simp only [advanceTurn, if_pos hlen]
    exact ⟨h₁, h₂⟩
  · have hne : s.order ≠ [] := fun he => hlen (by simp [he])
    obtain ⟨hlo, hhi⟩ := h₁ hne
    have hl : 0 < s.order.length := Nat.pos_of_ne_zero hlen
    simp only [advanceTurn, if_neg hlen]
    split_ifs with hge hneg hc
    · exact ⟨fun _ => by dsimp only; omega, fun he => absurd he hne⟩
    · exact ⟨fun _ => by dsimp only; omega, fun he => absurd he hne⟩
    · exact ⟨fun _ => by dsimp only; omega, fun he => absurd he hne⟩
    · exact ⟨fun _ => by dsimp only; omega, fun he => absurd he hne⟩

theorem indexInv_reorderTracker (s : TurnTrackerSt) (f t : Nat) (h : indexInv s) :
    indexInv (reorderTracker s f t) := by
  obtain ⟨h₁, h₂⟩ := h
  by_cases hlen : s.order.length = 0
  · simp only [reorderTracker, if_pos hlen]
    exact indexInv_congr rfl rfl ⟨h₁, h₂⟩
  · by_cases hrange : f < s.order.length ∧ t < s.order.length
    · have hne : s.order ≠ [] := fun he => hlen (by simp [he])
      obtain ⟨hlo, hhi⟩ := h₁ hne
      obtain ⟨hf, ht⟩ := hrange
      have hlen' :
          ((s.order.eraseIdx f).insertIdx t (s.order.get ⟨f, hf⟩)).length = s.order.length := by
        have herase : (s.order.eraseIdx f).length = s.order.length - 1 :=
          List.length_eraseIdx_of_lt hf
        have hle : t ≤ (s.order.eraseIdx f).length := by omega
        rw [List.length_insertIdx t _ hle, herase]
        omega
      simp only [reorderTracker, if_neg hlen]
      rw [dif_pos (show f < s.order.length ∧ t < s.order.length from ⟨hf, ht⟩)]
      refine ⟨fun _ => ?_, fun he => ?_⟩
      · dsimp only
        rw [hlen']
        split_ifs <;> omega
      · exfalso
        dsimp only at he
        have h0 := congrArg List.length he
        simp only [List.length_nil] at h0
        omega
    · simp only [reorderTracker, if_neg hlen]
      rw [dif_neg hrange]
      exact ⟨h₁, h₂⟩

theorem indexInv_setPlayers (s : TurnTrackerSt) (ps : List Nat) (h : indexInv s) :
    indexInv (setPlayers s ps) := by
  obtain ⟨h₁, h₂⟩ := h
  by_cases hlen : 0 < s.order.length
  · have hne : s.order ≠ [] := fun he => by simp [he] at hlen
    obtain ⟨hlo, hhi⟩ := h₁ hne
    simp only [setPlayers]
    rw [if_pos (show 0 < ({ s with players := ps } : TurnTrackerSt).order.length from hlen)]
    refine ⟨fun hne' => ?_, fun he' => ?_⟩
    · dsimp only at hne' ⊢
      have hpos : 0 < (s.order.filter (fun id => ps.contains id)).length :=
        List.length_pos.mpr hne'
      split_ifs with hcond
      · have hmax : max 0 (((s.order.filter (fun id => ps.contains id)).length : Int) - 1)
            = ((s.order.filter (fun id => ps.contains id)).length : Int) - 1 :=
          max_eq_right (by omega)
        rw [hmax]
        omega
      · omega
    · dsimp only at he' ⊢
      have hzero : (s.order.filter (fun id => ps.contains id)).length = 0 := by
        rw [he']
        rfl
      simp only [hzero, Nat.cast_zero]
      split_ifs with hcond
      · right
        decide
      · exfalso
        push_neg at hcond
        omega
  · simp only [setPlayers]
    rw [if_neg (show ¬0 < ({ s with players := ps } : TurnTrackerSt).order.length from hlen)]
    exact indexInv_congr rfl rfl ⟨h₁, h₂⟩

theorem indexInv_applyTrackerOp (s : TurnTrackerSt) (op : TrackerOp) (h : indexInv s) :
    indexInv (applyTrackerOp s op) := by
  cases op with
  | start => exact indexInv_startTurns s
  | advance d => exact indexInv_advanceTurn s d h
  | reorder f t => exact indexInv_reorderTracker s f t h
  | endMode => exact ⟨fun he => absurd rfl he, fun _ => Or.inl rfl⟩
  | setPlayers ps => exact indexInv_setPlayers s ps h

theorem foldl_indexInv (ops : List TrackerOp) (s : TurnTrackerSt) (h : indexInv s) :
    indexInv (ops.foldl applyTrackerOp s) := by
  induction ops generalizing s with
  | nil => exact h
  | cons op rest ih => exact ih _ (indexInv_applyTrackerOp s op h)

/-- Claim C1 (amended). After any sequence of turn-tracker operations
(start turns, advance, reorder, end, player-list update), activeIndex is
within [0, len(order)-1] whenever order is non-empty; whenever order is
empty, activeIndex is -1 or 0 (it can be 0: starting turns with an empty
roster, or a player-list update that removes every ordered character,
leaves activeIndex at 0 with an empty order). -/
theorem activeIndex_invariant (players : List Nat) (ops : List TrackerOp) :
    indexInv (runTrackerOps players ops) :=
  foldl_indexInv ops (initTracker players)
    ⟨fun he => absurd rfl he, fun _ => Or.inl rfl⟩

/-- Claim C1 counterexample. Starting turns with an empty roster produces
order = [] with activeIndex = 0, refuting that activeIndex equals -1
whenever order is empty. -/
theorem activeIndex_empty_counterexample :
    (runTrackerOps [] [TrackerOp.start]).order = [] ∧
    (runTrackerOps [] [TrackerOp.start]).activeIndex ≠ -1 := by
  decide

/-- Claim C2 (amended). For a turn state with non-empty order and valid
activeIndex: advance(+1) from the last index wraps to 0 and increments
turnCounter by exactly 1; advance(-1) from index 0 with a positive
turnCounter wraps to the last index and decrements turnCounter; advance(-1)
from index 0 with turnCounter = 0 leaves activeIndex at 0 and turnCounter
at 0 (no wrap to the last index); every non-wrapping advance changes
activeIndex by exactly the given direction and leaves turnCounter
unchanged. -/
theorem advanceTurn_spec (s : TurnTrackerSt) (hne : s.order ≠ []) :
    (s.activeIndex = (s.order.length : Int) - 1 →
      (advanceTurn s 1).activeIndex = 0 ∧
      (advanceTurn s 1).turnCounter = s.turnCounter + 1) ∧
    (s.activeIndex = 0 → 0 < s.turnCounter →
      (advanceTurn s (-1)).activeIndex = (s.order.length : Int) - 1 ∧
      (advanceTurn s (-1)).turnCounter = s.turnCounter - 1) ∧
    (s.activeIndex = 0 → s.turnCounter = 0 →
      (advanceTurn s (-1)).activeIndex = 0 ∧
      (advanceTurn s (-1)).turnCounter = 0) ∧
    (∀ d : Int, 0 ≤ s.activeIndex + d → s.activeIndex + d < (s.order.length : Int) →
      (advanceTurn s d).activeIndex = s.activeIndex + d ∧
      (advanceTurn s d).turnCounter = s.turnCounter) := by
  have hlen : s.order.length ≠ 0 := fun h => hne (List.length_eq_zero.mp h)
  have hl : 0 < s.order.length := Nat.pos_of_ne_zero hlen
  refine ⟨fun hlast => ?_, fun hzero hc => ?_, fun hzero hc => ?_, fun d hdlo hdhi => ?_⟩
  · simp only [advanceTurn, if_neg hlen]
    rw [if_pos (by omega)]
    exact ⟨rfl, rfl⟩
  · simp only [advanceTurn, if_neg hlen]
    rw [if_neg (by omega), if_pos (by omega), if_pos (by omega)]
    exact ⟨rfl, rfl⟩
  · simp only [advanceTurn, if_neg hlen]
    rw [if_neg (by omega), if_pos (by omega), if_neg (by omega)]
    exact ⟨rfl, hc⟩
  · simp only [advanceTurn, if_neg hlen]
    rw [if_neg (by omega), if_neg (by omega)]
    exact ⟨rfl, rfl⟩

/-- Witness for advanceTurn_spec at a concrete Active state
(order = [5, 9], activeIndex = 1, turnCounter = 0). -/
theorem advanceTurn_spec_witness :
    (let s : TurnTrackerSt := ⟨true, [5, 9], 1, 0, [5, 9]⟩
    s.order ≠ [] ∧
    ((s.activeIndex = (s.order.length : Int) - 1 →
      (advanceTurn s 1).activeIndex = 0 ∧
      (advanceTurn s 1).turnCounter = s.turnCounter + 1) ∧
    (s.activeIndex = 0 → 0 < s.turnCounter →
      (advanceTurn s (-1)).activeIndex = (s.order.length : Int) - 1 ∧
      (advanceTurn s (-1)).turnCounter = s.turnCounter - 1) ∧
    (s.activeIndex = 0 → s.turnCounter = 0 →
      (advanceTurn s (-1)).activeIndex = 0 ∧
      (advanceTurn s (-1)).turnCounter = 0) ∧
    (∀ d : Int, 0 ≤ s.activeIndex + d → s.activeIndex + d < (s.order.length : Int) →
      (advanceTurn s d).activeIndex = s.activeIndex + d ∧
      (advanceTurn s d).turnCounter = s.turnCounter))) :=
  ⟨by decide, advanceTurn_spec ⟨true, [5, 9], 1, 0, [5, 9]⟩ (by decide)⟩

/-- Claim C2 counterexample. In the Active state order = [5, 9],
activeIndex = 0, turnCounter = 0, advance(-1) leaves activeIndex at 0
instead of wrapping to the last index 1, refuting the claim that
advance(-1) from index 0 always sets activeIndex to the last index. -/
theorem advanceTurn_underflow_counterexample :
    (advanceTurn ⟨true, [5, 9], 0, 0, [5, 9]⟩ (-1)).activeIndex = 0 ∧
    (advanceTurn ⟨true, [5, 9], 0, 0, [5, 9]⟩ (-1)).activeIndex ≠
      ((⟨true, [5, 9], 0, 0, [5, 9]⟩ : TurnTrackerSt).order.length : Int) - 1 := by
  decide

/-! ## WebSocket server (src/server/ws.js)

A ClientInfo as registered on successful auth. The connection object (ws)
is embedded by a numeric identity sid (JS Sets and the comparison
client !== sender work by object identity) together with its readyState,
wsOpen meaning readyState === 1 (OPEN). -/

/-! ## Theorems about the server -/

theorem broadcastToOthers_eq (rooms : Rooms) (sender : Session) :
    broadcastToOthers rooms sender
      = (roomSessions rooms sender.gameId).filter
          (fun c => (c.sid != sender.sid) && c.wsOpen) := by
  unfold broadcastToOthers roomSessions
  cases alookup rooms sender.gameId <;> rfl

/-- Claim C3. A well-formed move for character cid is broadcast and its
pending entry upserted exactly when the issuer is DM or the characters
table records the issuer as owner; the broadcast reaches every other open
session of the issuer's room and never the issuer; on rejection nothing is
broadcast and the pending map is unchanged. -/
theorem handleMove_spec (rooms : Rooms) (chars : CharsDb) (client : Session)
    (cid : Nat) (x y angle : Int) (pending : List (Nat × PendingPos)) :
    handleMove rooms chars client ⟨some cid, some x, some y, some angle⟩ pending
      = (if client.role = "dm" ∨ charOwner chars cid = some client.userId then
          ((roomSessions rooms client.gameId).filter
            (fun c => (c.sid != client.sid) && c.wsOpen),
           aset pending cid ⟨x, y, some angle⟩)
        else ([], pending)) ∧
    client ∉ (handleMove rooms chars client ⟨some cid, some x, some y, some angle⟩ pending).1 := by
  have hkey : handleMove rooms chars client ⟨some cid, some x, some y, some angle⟩ pending
      = (if client.role = "dm" ∨ charOwner chars cid = some client.userId then
          ((roomSessions rooms client.gameId).filter
            (fun c => (c.sid != client.sid) && c.wsOpen),
           aset pending cid ⟨x, y, some angle⟩)
        else ([], pending)) := by
    simp only [handleMove, broadcastToOthers_eq]
    by_cases hacc : client.role = "dm" ∨ charOwner chars cid = some client.userId
    · rw [if_neg (by tauto), if_pos hacc]
    · rw [if_pos (by tauto), if_neg hacc]
  refine ⟨hkey, ?_⟩
  rw [hkey]
  split_ifs with hacc
  · intro hmem
    have hp := (List.mem_filter.mp hmem).2
    simp at hp
  · simp

/-- Claim C4. A turn_update or initiative_sort message from a non-DM
session is a silent no-op: the stored turn state is unchanged, nobody
receives a broadcast, and no frame (hence no error frame) is sent back. -/
theorem nonDM_turn_silent (rooms : Rooms) (turnStates : List (Nat × StoredTurnState))
    (client : Session) (msg : TurnUpdateIn) (sortedCharIds : Option (List Nat))
    (h : client.role ≠ "dm") :
    handleTurnUpdate rooms turnStates client msg = (turnStates, []) ∧
    handleInitiativeSort rooms client sortedCharIds = [] := by
  constructor
  · simp only [handleTurnUpdate, if_pos h]
  · simp only [handleInitiativeSort, if_pos h]

/-- Witness for nonDM_turn_silent at a concrete player session. -/
theorem nonDM_turn_silent_witness :
    ((⟨1, 2, "p1", 7, "player", true⟩ : Session).role ≠ "dm") ∧
    (handleTurnUpdate [] [] ⟨1, 2, "p1", 7, "player", true⟩ ⟨true, some [5, 9], some 0, none⟩
      = ([], []) ∧
     handleInitiativeSort [] ⟨1, 2, "p1", 7, "player", true⟩ (some [9, 5]) = []) :=
  ⟨by decide,
   nonDM_turn_silent [] [] ⟨1, 2, "p1", 7, "player", true⟩ ⟨true, some [5, 9], some 0, none⟩
     (some [9, 5]) (by decide)⟩

/-- Claim C5 (amended). A well-formed non-auth message arriving before a
successful auth does not reach any handler (so no state changes and no
reply frame is produced by a handler), but the server closes the
connection with code 4005 'Not authenticated'; the connection does not
remain open. -/
theorem preauth_close (msgType : String) (h : msgType ≠ "auth") :
    messageGuard true false msgType = .closedConn 4005 "Not authenticated" := by
  unfold messageGuard
  rw [if_neg (by simp), if_neg h, if_pos (by simp)]

/-- Witness for preauth_close at the move message type. -/
theorem preauth_close_witness :
    ("move" ≠ "auth") ∧
    messageGuard true false "move" = .closedConn 4005 "Not authenticated" :=
  ⟨by decide, preauth_close "move" (by decide)⟩

/-- Claim C5 counterexample. A pre-auth move frame is not ignored with the
connection left open: the server responds by closing the connection with
code 4005. -/
theorem preauth_not_ignored_counterexample :
    messageGuard true false "move" = .closedConn 4005 "Not authenticated" ∧
    messageGuard true false "move" ≠ .ignored := by
  decide

/-- Claim C6 (amended). On a tick whose Gateway write fails, nothing in
flushPositionSaves catches or logs the error: the exception propagates
(third component), the transaction leaves the store unchanged, and the
pending map is NOT cleared - the failed batch's entries stay queued, and a
later successful tick writes exactly them (they are retried, together with
any moves that arrived after the failure). -/
theorem flush_failure_keeps_pending (pending : List (Nat × PendingPos)) (chars : CharsDb)
    (h : pending ≠ []) :
    flushPositionSaves false pending chars = (pending, chars, true) ∧
    flushPositionSaves true pending chars
      = ([], pending.foldl (fun db e => applyPosUpdate db e.1 e.2) chars, false) := by
  constructor
  · simp only [flushPositionSaves, if_neg h]
    rfl
  · simp only [flushPositionSaves, if_neg h]
    rfl

/-- Witness for flush_failure_keeps_pending at a one-entry batch. -/
theorem flush_failure_keeps_pending_witness :
    ([((1 : Nat), (⟨2, 3, none⟩ : PendingPos))] ≠ []) ∧
    (flushPositionSaves false [(1, ⟨2, 3, none⟩)] [(1, ⟨10, 0, 0, 0⟩)]
      = ([(1, ⟨2, 3, none⟩)], [(1, ⟨10, 0, 0, 0⟩)], true) ∧
     flushPositionSaves true [(1, ⟨2, 3, none⟩)] [(1, ⟨10, 0, 0, 0⟩)]
      = ([], [(1, ⟨2, 3, none⟩)].foldl (fun db e => applyPosUpdate db e.1 e.2)
          [(1, ⟨10, 0, 0, 0⟩)], false)) :=
  ⟨by decide,
   flush_failure_keeps_pending [(1, ⟨2, 3, none⟩)] [(1, ⟨10, 0, 0, 0⟩)] (by decide)⟩

/-- Claim C6 counterexample. After a failed tick the batch entry for
character 1 is still in the pending map, and the next (successful) tick
writes that very entry to the store: the failed batch IS retried on a
later tick, refuting that only moves arriving after the failure repopulate
the queue. -/
theorem flush_retry_counterexample :
    (flushPositionSaves false [(1, ⟨2, 3, none⟩)] [(1, ⟨10, 0, 0, 0⟩)]).1
      = [(1, ⟨2, 3, none⟩)] ∧
    (flushPositionSaves true
        (flushPositionSaves false [(1, ⟨2, 3, none⟩)] [(1, ⟨10, 0, 0, 0⟩)]).1
        [(1, ⟨10, 0, 0, 0⟩)]).2.1
      = [(1, ⟨10, 2, 3, 0⟩)] := by
  decide

/-- Claim C7. An accepted chat message with recipientId null is delivered
to every open session of the sender's room, including the sender's own
(open) session; an accepted chat message with recipientId rid is delivered
exactly to the open sessions of that room whose userId is the sender's or
rid, and to no other session. -/
theorem chat_routing (rooms : Rooms) (client : Session) (content : List Char)
    (rid : Nat) (roll : Option Roll) (db : List ChatRow) (room : List Session)
    (hne : jsTrim content ≠ []) (hlen : (jsTrim content).length ≤ 500)
    (hroom : alookup rooms client.gameId = some room) :
    (handleChatMessage rooms client ⟨some content, none, roll⟩ db).2
      = room.filter (fun c => c.wsOpen) ∧
    (client ∈ room → client.wsOpen = true →
      client ∈ (handleChatMessage rooms client ⟨some content, none, roll⟩ db).2) ∧
    (handleChatMessage rooms client ⟨some content, some rid, roll⟩ db).2
      = room.filter
          (fun c => ((c.userId == client.userId) || (c.userId == rid)) && c.wsOpen) := by
  have hcond : ¬(jsTrim content = [] ∨ 500 < (jsTrim content).length) := by
    push_neg
    exact ⟨hne, by omega⟩
  have hgroup : (handleChatMessage rooms client ⟨some content, none, roll⟩ db).2
      = room.filter (fun c => c.wsOpen) := by
    simp only [handleChatMessage, Option.getD_some]
    rw [if_neg hcond]
    simp only [broadcastToAll, hroom]
  refine ⟨hgroup, ?_, ?_⟩
  · intro hmem hopen
    rw [hgroup]
    exact List.mem_filter.mpr ⟨hmem, hopen⟩
  · simp only [handleChatMessage, Option.getD_some]
    rw [if_neg hcond]
    simp only [hroom]

/-- Witness for chat_routing: room 7 with the sender (user 2), user 3 and
user 4 (the DM); content "hi", direct recipient user 3. -/
theorem chat_routing_witness :
    (jsTrim ['h', 'i'] ≠ []) ∧ ((jsTrim ['h', 'i']).length ≤ 500) ∧
    (alookup chatRooms chatSender.gameId = some chatMembers) ∧
    ((handleChatMessage chatRooms chatSender ⟨some ['h', 'i'], none, none⟩ []).2
      = chatMembers.filter (fun c => c.wsOpen) ∧
    (chatSender ∈ chatMembers → chatSender.wsOpen = true →
      chatSender ∈ (handleChatMessage chatRooms chatSender ⟨some ['h', 'i'], none, none⟩ []).2) ∧
    (handleChatMessage chatRooms chatSender ⟨some ['h', 'i'], some 3, none⟩ []).2
      = chatMembers.filter
          (fun c => ((c.userId == chatSender.userId) || (c.userId == 3)) && c.wsOpen)) :=
  ⟨by decide, by decide, by decide,
   chat_routing chatRooms chatSender ['h', 'i'] 3 none [] chatMembers
     (by decide) (by decide) (by decide)⟩

/-- Claim C9 (amended). Chat content validation happens on the trimmed
content, before any persistence or routing: whenever the trimmed content
is empty or longer than 500 characters the message is neither persisted
nor delivered to anyone. In particular a 501-character content with no
leading/trailing whitespace is rejected, but a 501-character content that
trims to at most 500 characters is accepted. -/
theorem chat_content_validation (rooms : Rooms) (client : Session) (msg : ChatIn)
    (db : List ChatRow)
    (h : jsTrim (msg.content.getD []) = [] ∨ 500 < (jsTrim (msg.content.getD [])).length) :
    handleChatMessage rooms client msg db = (db, []) := by
  simp only [handleChatMessage]
  rw [if_pos h]

/-- Witness for chat_content_validation at a 501-character content of
'a' characters (trimming removes nothing). -/
theorem chat_content_validation_witness :
    (jsTrim ((some (List.replicate 501 'a') : Option (List Char)).getD []) = [] ∨
      500 < (jsTrim ((some (List.replicate 501 'a') : Option (List Char)).getD [])).length) ∧
    handleChatMessage [] ⟨1, 2, "u2", 7, "player", true⟩
      ⟨some (List.replicate 501 'a'), none, none⟩ [] = ([], []) :=
  ⟨by decide,
   chat_content_validation [] ⟨1, 2, "u2", 7, "player", true⟩
     ⟨some (List.replicate 501 'a'), none, none⟩ [] (by decide)⟩

/-- Claim C9 counterexample. A 501-character content consisting of 500 'a'
characters and one trailing space trims to 500 characters, so the message
IS persisted and IS broadcast, refuting that every 501-character chat
message is neither persisted nor broadcast. -/
theorem chat_trailing_space_counterexample :
    (List.replicate 500 'a' ++ [' ']).length = 501 ∧
    (handleChatMessage [(7, [⟨1, 2, "u2", 7, "player", true⟩])]
        ⟨1, 2, "u2", 7, "player", true⟩
        ⟨some (List.replicate 500 'a' ++ [' ']), none, none⟩ []).1 ≠ [] ∧
    (handleChatMessage [(7, [⟨1, 2, "u2", 7, "player", true⟩])]
        ⟨1, 2, "u2", 7, "player", true⟩
        ⟨some (List.replicate 500 'a' ++ [' ']), none, none⟩ []).2 ≠ [] := by
  decide

/-- The trim class covers the non-ASCII ECMAScript whitespace too: a
501-character content ending in a form feed (U+000C) trims to 500
characters and is accepted - persisted and broadcast - exactly as the
program behaves. -/
theorem chat_trailing_formfeed_accepted :
    (List.replicate 500 'a' ++ ['\x0C']).length = 501 ∧
    (handleChatMessage [(7, [⟨1, 2, "u2", 7, "player", true⟩])]
        ⟨1, 2, "u2", 7, "player", true⟩
        ⟨some (List.replicate 500 'a' ++ ['\x0C']), none, none⟩ []).1 ≠ [] ∧
    (handleChatMessage [(7, [⟨1, 2, "u2", 7, "player", true⟩])]
        ⟨1, 2, "u2", 7, "player", true⟩
        ⟨some (List.replicate 500 'a' ++ ['\x0C']), none, none⟩ []).2 ≠ [] := by
  decide

/-- Lookup through a keyed in-place row update (the shape of both UPDATE
statements of the flush transaction). -/
theorem alookup_map_ifupdate (l : List (Nat × CharRow)) (cid id : Nat) (g : CharRow → CharRow) :
    alookup (l.map (fun p => if p.1 = cid then (p.1, g p.2) else p)) id
      = (alookup l id).map (fun row => if id = cid then g row else row) := by
  induction l with
  | nil => rfl
  | cons hd tl ih =>
    obtain ⟨k, v⟩ := hd
    rw [List.map_cons]
    dsimp only
    by_cases hc : k = cid
    · rw [if_pos hc]
      simp only [alookup]
      by_cases hk : k = id
      · rw [if_pos hk, if_pos hk]
        simp only [Option.map_some']
        rw [if_pos (show id = cid by omega)]
      · rw [if_neg hk, if_neg hk]
        exact ih
    · rw [if_neg hc]
      simp only [alookup]
      by_cases hk : k = id
      · rw [if_pos hk, if_pos hk]
        simp only [Option.map_some']
        rw [if_neg (show ¬id = cid by omega)]
      · rw [if_neg hk, if_neg hk]
        exact ih

theorem alookup_applyPosUpdate (chars : CharsDb) (cid : Nat) (pos : PendingPos) (id : Nat) :
    alookup (applyPosUpdate chars cid pos) id
      = (alookup chars id).map (fun row =>
          if id = cid then
            match pos.angle with
            | some a => { row with x := pos.x, y := pos.y, angle := a }
            | none => { row with x := pos.x, y := pos.y }
          else row) := by
  cases hangle : pos.angle with
  | some a =>
    simp only [applyPosUpdate, hangle]
    exact alookup_map_ifupdate chars cid id
      (fun row => { row with x := pos.x, y := pos.y, angle := a })
  | none =>
    simp only [applyPosUpdate, hangle]
    exact alookup_map_ifupdate chars cid id
      (fun row => { row with x := pos.x, y := pos.y })

/-- Claim C10. Every dm_drag enqueue produces a pending entry with a null
angle; flushing an entry with a null angle writes x and y for that
character and leaves every character's stored angle unchanged; an entry
with a non-null angle updates all three fields. -/
theorem dmDrag_angle_preserved (rooms : Rooms) (client : Session)
    (cid : Nat) (x y : Int) (pending : List (Nat × PendingPos))
    (chars : CharsDb) (id : Nat) (row : CharRow)
    (hdm : client.role = "dm") (hrow : alookup chars id = some row) :
    (handleDmDrag rooms client ⟨some cid, some x, some y⟩ pending).2
      = aset pending cid ⟨x, y, none⟩ ∧
    (∀ cid2 px py, alookup (applyPosUpdate chars cid2 ⟨px, py, none⟩) id
      = some (if id = cid2 then { row with x := px, y := py } else row)) ∧
    (∀ cid2 px py,
      (alookup (applyPosUpdate chars cid2 ⟨px, py, none⟩) id).map CharRow.angle
        = some row.angle) ∧
    (∀ cid2 px py a, alookup (applyPosUpdate chars cid2 ⟨px, py, some a⟩) id
      = some (if id = cid2 then { row with x := px, y := py, angle := a } else row)) := by
  have hnone : ∀ cid2 px py, alookup (applyPosUpdate chars cid2 ⟨px, py, none⟩) id
      = some (if id = cid2 then { row with x := px, y := py } else row) := by
    intro cid2 px py
    rw [alookup_applyPosUpdate, hrow]
    rfl
  refine ⟨?_, hnone, ?_, ?_⟩
  · simp only [handleDmDrag]
    rw [if_neg (by simp [hdm])]
  · intro cid2 px py
    rw [hnone cid2 px py]
    by_cases h : id = cid2
    · rw [if_pos h]
      rfl
    · rw [if_neg h]
      rfl
  · intro cid2 px py a
    rw [alookup_applyPosUpdate, hrow]
    rfl

theorem roomsNonempty_joinRoom (rooms : Rooms) (c : Session) (h : roomsNonempty rooms) :
    roomsNonempty (joinRoom rooms c) := by
  intro g ms hms
  unfold joinRoom at hms
  cases hc : alookup rooms c.gameId with
  | none =>
    rw [hc] at hms
    rw [alookup_aset] at hms
    by_cases hg : c.gameId = g
    · rw [if_pos hg] at hms
      cases hms
      simp
    · rw [if_neg hg] at hms
      exact h g ms hms
  | some members =>
    rw [hc] at hms
    rw [alookup_aset] at hms
    by_cases hg : c.gameId = g
    · rw [if_pos hg] at hms
      cases hms
      split_ifs
      · exact h c.gameId members hc
      · simp
    · rw [if_neg hg] at hms
      exact h g ms hms

theorem roomsNonempty_closeConn (rooms : Rooms) (ts : List (Nat × StoredTurnState))
    (c : Session) (h : roomsNonempty rooms) :
    roomsNonempty (closeConn rooms ts c).1 := by
  intro g ms hms
  simp only [closeConn] at hms
  cases hc : alookup rooms c.gameId with
  | none =>
    rw [hc] at hms
    exact h g ms hms
  | some members =>
    rw [hc] at hms
    dsimp only at hms
    by_cases hemp : members.filter (fun s => s.sid != c.sid) = []
    · rw [if_pos hemp] at hms
      dsimp only at hms
      rw [alookup_aremove] at hms
      by_cases hg : c.gameId = g
      · rw [if_pos hg] at hms
        cases hms
      · rw [if_neg hg] at hms
        exact h g ms hms
    · rw [if_neg hemp] at hms
      dsimp only at hms
      rw [alookup_aset] at hms
      by_cases hg : c.gameId = g
      · rw [if_pos hg] at hms
        cases hms
        exact hemp
      · rw [if_neg hg] at hms
        exact h g ms hms

theorem roomsNonempty_runRoomEvs (evs : List RoomEv) :
    roomsNonempty (runRoomEvs evs).1 := by
  have hbase : roomsNonempty ([] : Rooms) := by
    intro g ms hms
    cases hms
  have main : ∀ (st : Rooms × List (Nat × StoredTurnState)), roomsNonempty st.1 →
      roomsNonempty (evs.foldl roomStep st).1 := by
    induction evs with
    | nil => intro st h; exact h
    | cons e rest ih =>
      intro st h
      refine ih (roomStep st e) ?_
      cases e with
      | join c => exact roomsNonempty_joinRoom st.1 c h
      | leave c => exact roomsNonempty_closeConn st.1 st.2 c h
  exact main ([], []) hbase

/-- Claim C8. Over any sequence of join and leave events from server boot,
a room exists in the registry exactly when its session set is non-empty
(at least one session is mapped to it); join lazily creates the room;
leave removes exactly the leaving session from its room; when the
remaining set is empty the room and its stored turn state are both
deleted, and the room survives exactly when the remaining set is
non-empty. -/
theorem room_lifecycle (evs : List RoomEv) (g : Nat) :
    ((alookup (runRoomEvs evs).1 g).isSome ↔ roomSessions (runRoomEvs evs).1 g ≠ []) ∧
    (∀ (rooms : Rooms) (c : Session), (alookup (joinRoom rooms c) c.gameId).isSome) ∧
    (∀ (rooms : Rooms) (ts : List (Nat × StoredTurnState)) (c : Session),
      roomSessions (closeConn rooms ts c).1 c.gameId
        = (roomSessions rooms c.gameId).filter (fun s => s.sid != c.sid)) ∧
    (∀ (rooms : Rooms) (ts : List (Nat × StoredTurnState)) (c : Session)
        (members : List Session),
      alookup rooms c.gameId = some members →
      members.filter (fun s => s.sid != c.sid) = [] →
      alookup (closeConn rooms ts c).1 c.gameId = none ∧
      alookup (closeConn rooms ts c).2 c.gameId = none) ∧
    (∀ (rooms : Rooms) (ts : List (Nat × StoredTurnState)) (c : Session)
        (members : List Session),
      alookup rooms c.gameId = some members →
      members.filter (fun s => s.sid != c.sid) ≠ [] →
      (alookup (closeConn rooms ts c).1 c.gameId).isSome) := by
  refine ⟨⟨?_, ?_⟩, ?_, ?_, ?_, ?_⟩
  · intro hsome
    cases hl : alookup (runRoomEvs evs).1 g with
    | none =>
      rw [hl] at hsome
      cases hsome
    | some ms =>
      have hne := roomsNonempty_runRoomEvs evs g ms hl
      simp [roomSessions, hl, hne]
  · intro hne
    cases hl : alookup (runRoomEvs evs).1 g with
    | none =>
      exfalso
      apply hne
      simp [roomSessions, hl]
    | some ms => simp
  · intro rooms c
    unfold joinRoom
    cases hc : alookup rooms c.gameId with
    | none =>
      rw [alookup_aset]
      simp
    | some members =>
      rw [alookup_aset]
      simp
  · intro rooms ts c
    simp only [closeConn]
    cases hc : alookup rooms c.gameId with
    | none => simp [roomSessions, hc]
    | some members =>
      dsimp only
      by_cases hemp : members.filter (fun s => s.sid != c.sid) = []
      · rw [if_pos hemp]
        simp [roomSessions, alookup_aremove, hc, hemp]
      · rw [if_neg hemp]
        simp [roomSessions, alookup_aset, hc]
  · intro rooms ts c members hc hemp
    simp only [closeConn, hc]
    rw [if_pos hemp]
    constructor <;> simp [alookup_aremove]
  · intro rooms ts c members hc hemp
    simp only [closeConn, hc]
    rw [if_neg hemp]
    simp [alookup_aset]

/-- Witness for dmDrag_angle_preserved at a concrete DM session and a
one-character table. -/
theorem dmDrag_angle_preserved_witness :
    ((⟨3, 4, "dmu", 7, "dm", true⟩ : Session).role = "dm") ∧
    (alookup [((5 : Nat), (⟨4, 0, 0, 9⟩ : CharRow))] 5 = some ⟨4, 0, 0, 9⟩) ∧
    ((handleDmDrag [] ⟨3, 4, "dmu", 7, "dm", true⟩ ⟨some 5, some 1, some 2⟩ []).2
      = aset [] 5 ⟨1, 2, none⟩ ∧
    (∀ cid2 px py, alookup (applyPosUpdate [(5, ⟨4, 0, 0, 9⟩)] cid2 ⟨px, py, none⟩) 5
      = some (if 5 = cid2 then { (⟨4, 0, 0, 9⟩ : CharRow) with x := px, y := py }
          else ⟨4, 0, 0, 9⟩)) ∧
    (∀ cid2 px py,
      (alookup (applyPosUpdate [(5, ⟨4, 0, 0, 9⟩)] cid2 ⟨px, py, none⟩) 5).map CharRow.angle
        = some (⟨4, 0, 0, 9⟩ : CharRow).angle) ∧
    (∀ cid2 px py a, alookup (applyPosUpdate [(5, ⟨4, 0, 0, 9⟩)] cid2 ⟨px, py, some a⟩) 5
      = some (if 5 = cid2 then { (⟨4, 0, 0, 9⟩ : CharRow) with x := px, y := py, angle := a }
          else ⟨4, 0, 0, 9⟩))) :=
  ⟨by decide, by decide,
   dmDrag_angle_preserved [] ⟨3, 4, "dmu", 7, "dm", true⟩ 5 1 2 [] [(5, ⟨4, 0, 0, 9⟩)] 5
     ⟨4, 0, 0, 9⟩ (by decide) (by decide)⟩

end DNDCrawler

